import Mathlib

/-!
Verification of the spaced-repetition flashcard core (`src/main.py`).

The Python source is shallowly embedded: `datetime` timestamps become
integers (any fixed resolution; `datetime` comparison and arithmetic are
total-order and additive, which `Int` models exactly), `timedelta(days=d)`
becomes `d * 86400`, Python list indexing (with its negative-index
wrap-around and `IndexError`) becomes `pyGet`, and the two uses of the
`random` module are parameterised by oracle functions whose behavioural
contracts (`random.sample` draws `k` elements from the pool,
`random.shuffle` permutes the list) appear as hypotheses.
-/

namespace Flashcards

/-- `INTERVALS = [1, 3, 7, 14, 30, 90]` — the spaced repetition intervals in
days (src/main.py line 24). -/
def INTERVALS : List Int := [1, 3, 7, 14, 30, 90]

/-- The `Flashcard` entity (src/main.py lines 26-33).  `level`, `reviews` and
`correct` are Python ints, hence `Int`; `next_review` is a `datetime`,
embedded as an integer timestamp. -/
structure Flashcard where
  word : String
  translation : String
  level : Int
  next_review : Int
  reviews : Int
  correct : Int
deriving DecidableEq, Repr

/-- `Flashcard(word, translation)` with the constructor defaults
`level=0`, `next_review=now` (from `datetime.now()`), `reviews=0`,
`correct=0` (src/main.py lines 27-33). -/
def newCard (word translation : String) (now : Int) : Flashcard :=
  { word := word
    translation := translation
    level := 0
    next_review := now
    reviews := 0
    correct := 0 }

/-- Python list indexing `l[i]`: non-negative indices are direct,
negative indices count from the end, anything out of range raises
`IndexError` (modelled as `none`). -/
def pyGet (l : List Int) (i : Int) : Option Int :=
  if 0 ≤ i then l.get? i.toNat
  else if 0 ≤ (l.length : Int) + i then l.get? ((l.length : Int) + i).toNat
  else none

/-- `timedelta(days=d)` as a number of seconds. -/
def timedeltaDays (d : Int) : Int := d * 86400

/-- `update_card_status(card, correct)` (src/main.py lines 64-71), with the
internal `datetime.now()` call made explicit as the `now` argument.
`none` models the `IndexError` Python would raise on `INTERVALS[card.level]`
when the post-transition level is outside the table. -/
def update_card_status (card : Flashcard) (correct : Bool) (now : Int) :
    Option Flashcard :=
  let reviews' := card.reviews + 1
  let correct' := if correct then card.correct + 1 else card.correct
  let level' := if correct then min ((INTERVALS.length : Int) - 1) (card.level + 1)
                else max 0 (card.level - 1)
  match pyGet INTERVALS level' with
  | some d => some { card with
      reviews := reviews'
      correct := correct'
      level := level'
      next_review := now + timedeltaDays d }
  | none => none

/-- A finite sequence of review outcomes applied in order; each element is
the outcome flag together with the time of that review. -/
def applySeq (card : Flashcard) (outs : List (Bool × Int)) : Option Flashcard :=
  match outs with
  | [] => some card
  | (b, now) :: rest =>
    match update_card_status card b now with
    | some c' => applySeq c' rest
    | none => none

/-- Due-card selection (src/main.py line 128):
`[card for card in cards if card.next_review <= datetime.now()]`. -/
def get_due_cards (cards : List Flashcard) (now : Int) : List Flashcard :=
  cards.filter (fun c => c.next_review ≤ now)

/-- One record of the persisted JSON snapshot.  Every field is optional
because `Flashcard.from_dict` reads a plain dict: absent required keys raise
`KeyError`, while `reviews`/`correct` use `dict.get` with default `0`
(src/main.py lines 45-51). The ISO-8601 timestamp string is embedded as the
integer timestamp it denotes (`isoformat`/`fromisoformat` round-trip a
`datetime` exactly, to microsecond precision). -/
structure CardRecord where
  word : Option String
  translation : Option String
  level : Option Int
  next_review : Option Int
  reviews : Option Int
  correct : Option Int
deriving DecidableEq, Repr

/-- `Flashcard.to_dict` (src/main.py lines 35-43). -/
def to_dict (c : Flashcard) : CardRecord :=
  { word := some c.word
    translation := some c.translation
    level := some c.level
    next_review := some c.next_review
    reviews := some c.reviews
    correct := some c.correct }

/-- Errors raised while loading the snapshot, other than first-run absence:
an OS read failure, a `json.load` failure, or a record missing a required
key (`KeyError` in `from_dict`). -/
inductive LoadError
  | ioError
  | malformedJson
  | badRecord
deriving DecidableEq, Repr

/-- `Flashcard.from_dict` (src/main.py lines 45-51): the required keys
`word`, `translation`, `level`, `next_review` raise `KeyError` when absent;
`reviews` and `correct` default to `0` via `dict.get`. -/
def from_dict (d : CardRecord) : Except LoadError Flashcard :=
  match d.word, d.translation, d.level, d.next_review with
  | some w, some t, some l, some nr =>
    .ok { word := w
          translation := t
          level := l
          next_review := nr
          reviews := d.reviews.getD 0
          correct := d.correct.getD 0 }
  | _, _, _, _ => .error .badRecord

/-- `save_cards` (src/main.py lines 53-55): the snapshot written to disk is
the list of serialized records, in collection order. -/
def save_cards (cards : List Flashcard) : List CardRecord :=
  cards.map to_dict

/-- The state of the snapshot file as `load_cards` finds it: absent
(`FileNotFoundError`), unreadable for another OS reason, present but not
valid JSON, or a parsed list of records. -/
inductive FileState
  | absent
  | unreadable
  | invalidJson
  | json (records : List CardRecord)

/-- The list comprehension
`[Flashcard.from_dict(card_data) for card_data in json.load(f)]`
(src/main.py line 60): records are converted in order and the first
`KeyError` aborts the whole load. -/
def load_records : List CardRecord → Except LoadError (List Flashcard)
  | [] => .ok []
  | r :: rs =>
    match from_dict r with
    | .error e => .error e
    | .ok c =>
      match load_records rs with
      | .error e => .error e
      | .ok cs => .ok (c :: cs)

/-- `load_cards` (src/main.py lines 57-62): `FileNotFoundError` yields `[]`;
any other exception — OS errors, `json.JSONDecodeError`, `KeyError` inside
`from_dict` — propagates (modelled as `Except.error`). -/
def load_cards : FileState → Except LoadError (List Flashcard)
  | .absent => .ok []
  | .unreadable => .error .ioError
  | .invalidJson => .error .malformedJson
  | .json rs => load_records rs

/-- A record has every required key present. -/
def wellFormed (r : CardRecord) : Bool :=
  r.word.isSome && r.translation.isSome && r.level.isSome && r.next_review.isSome

/-- The snapshot states on which the Python code raises, i.e. everything
other than first-run absence and a fully well-formed snapshot. -/
def corruptFile : FileState → Prop
  | .absent => False
  | .unreadable => True
  | .invalidJson => True
  | .json rs => ∃ r ∈ rs, wellFormed r = false

/-- Per-card accuracy as computed in the statistics block (src/main.py
lines 104-105): `card.correct/card.reviews if card.reviews > 0 else 0`.
Python float division is embedded as exact rational division. -/
def per_card_accuracy (c : Flashcard) : ℚ :=
  if c.reviews > 0 then (c.correct : ℚ) / (c.reviews : ℚ) else 0

/-- `avg_accuracy` (src/main.py lines 104-105): `np.mean([...]) * 100`,
where `np.mean` is sum divided by length. -/
def avg_accuracy (cards : List Flashcard) : ℚ :=
  ((cards.map per_card_accuracy).sum / (cards.length : ℚ)) * 100

/-- `create_quiz(cards, current_word)` (src/main.py lines 73-80).
`next(...)` returns the first matching card, or raises `StopIteration`
(`none`) when nothing matches.  `random.sample(pool, k)` and
`random.shuffle` are passed in as oracles `sample` and `shuffle`; their
behavioural contracts are hypotheses of the theorems below. -/
def create_quiz (sample : List String → Nat → List String)
    (shuffle : List String → List String)
    (cards : List Flashcard) (current_word : String) :
    Option (List String × String) :=
  match cards.find? (fun c => c.word == current_word) with
  | none => none
  | some correct_card =>
    let available := cards.filter (fun c => c.word != current_word)
    let pool := available.map (fun c => c.translation)
    let options := correct_card.translation :: sample pool (min 3 available.length)
    some (shuffle options, correct_card.translation)

/-- What the "Add Card" handler leaves behind (src/main.py lines 93-97):
the possibly-extended collection, whether `save_cards` ran, and the message
shown to the user (the handler only ever emits the success message). -/
structure AddResult where
  cards : List Flashcard
  saved : Bool
  message : Option String
deriving DecidableEq, Repr

/-- The "Add Card" button handler (src/main.py lines 93-97):
`if word and translation:` append the new card, persist, and show
"Card added successfully!"; otherwise fall through silently. -/
def add_card (cards : List Flashcard) (word translation : String)
    (now : Int) : AddResult :=
  if word ≠ "" ∧ translation ≠ "" then
    { cards := cards ++ [newCard word translation now]
      saved := true
      message := some "Card added successfully!" }
  else
    { cards := cards, saved := false, message := none }

/-- The invariant maintained by the scheduler: level clamped to the interval
table and correct count bounded by review count. -/
def Inv (c : Flashcard) : Prop :=
  0 ≤ c.level ∧ c.level ≤ 5 ∧ 0 ≤ c.correct ∧ c.correct ≤ c.reviews

/-- The spec's §8 statistics scenario, card one: 4 reviews, 2 correct. -/
def statsCardA : Flashcard :=
  { word := "a", translation := "b", level := 0, next_review := 0, reviews := 4, correct := 2 }

/-- The spec's §8 statistics scenario, card two: never reviewed. -/
def statsCardB : Flashcard :=
  { word := "c", translation := "d", level := 0, next_review := 0, reviews := 0, correct := 0 }

/-- A concrete card used to exercise the quiz generator. -/
def quizCardA : Flashcard :=
  { word := "casa", translation := "house", level := 0, next_review := 0, reviews := 0, correct := 0 }

/-- A second concrete card used to exercise the quiz generator. -/
def quizCardB : Flashcard :=
  { word := "perro", translation := "dog", level := 0, next_review := 0, reviews := 0, correct := 0 }

/-! ## Helper lemmas -/

/-- Indexing `INTERVALS` at a level inside `[0, 5]` succeeds. -/
lemma pyGet_INTERVALS_isSome {i : Int} (h0 : 0 ≤ i) (h5 : i ≤ 5) :
    ∃ d, pyGet INTERVALS i = some d := by
  interval_cases i <;> exact ⟨_, rfl⟩

/-- On a card whose level is in range, `update_card_status` succeeds and its
result is exactly the transition described by the spec. -/
lemma update_card_status_eq (card : Flashcard) (b : Bool) (now : Int)
    (h0 : 0 ≤ card.level) (h1 : card.level ≤ 5) :
    ∃ d, pyGet INTERVALS
        (if b then min (card.level + 1) 5 else max (card.level - 1) 0) = some d ∧
      update_card_status card b now = some { card with
        reviews := card.reviews + 1
        correct := if b then card.correct + 1 else card.correct
        level := if b then min (card.level + 1) 5 else max (card.level - 1) 0
        next_review := now + timedeltaDays d } := by
  have hL0 : 0 ≤ (if b then min (card.level + 1) 5 else max (card.level - 1) 0) := by
    cases b <;> simp [min_def, max_def] <;> split <;> omega
  have hL5 : (if b then min (card.level + 1) 5 else max (card.level - 1) 0) ≤ 5 := by
    cases b <;> simp [min_def, max_def] <;> split <;> omega
  obtain ⟨d, hd⟩ := pyGet_INTERVALS_isSome hL0 hL5
  refine ⟨d, hd, ?_⟩
  have hmin : min ((INTERVALS.length : Int) - 1) (card.level + 1)
      = min (card.level + 1) 5 := by
    simp [INTERVALS, min_comm]
  have hmax : max (0 : Int) (card.level - 1) = max (card.level - 1) 0 :=
    max_comm _ _
  cases b
  all_goals simp only [Bool.false_eq_true, eq_self_iff_true, if_false, if_true,
    ite_true, ite_false, update_card_status, hmin, hmax] at hd ⊢
  all_goals rw [hd]

/-- `update_card_status` preserves the invariant. -/
lemma update_preserves_inv {c c' : Flashcard} {b : Bool} {now : Int}
    (hc : Inv c) (h : update_card_status c b now = some c') : Inv c' := by
  obtain ⟨h0, h1, h2, h3⟩ := hc
  obtain ⟨d, _, heq⟩ := update_card_status_eq c b now h0 h1
  have hc' := Option.some.inj (h.symm.trans heq)
  subst hc'
  constructor
  · cases b <;> simp [min_def, max_def] <;> split <;> omega
  refine ⟨?_, ?_, ?_⟩
  · cases b <;> simp [min_def, max_def] <;> split <;> omega
  · cases b <;> simp <;> omega
  · cases b <;> simp <;> omega

/-- Any outcome sequence applied to an invariant-satisfying card succeeds
and lands on an invariant-satisfying card. -/
lemma applySeq_inv (outs : List (Bool × Int)) :
    ∀ c : Flashcard, Inv c → ∃ c', applySeq c outs = some c' ∧ Inv c' := by
  induction outs with
  | nil => exact fun c hc => ⟨c, rfl, hc⟩
  | cons p rest ih =>
    intro c hc
    obtain ⟨b, now⟩ := p
    obtain ⟨d, _, heq⟩ := update_card_status_eq c b now hc.1 hc.2.1
    obtain ⟨c'', hrest, hinv⟩ := ih _ (update_preserves_inv hc heq)
    exact ⟨c'', by simp [applySeq, heq, hrest], hinv⟩

/-! ## Claims -/

/-- C1: `update_card_status` increments `reviews`; on a correct outcome it
increments `correct` and promotes `level` to `min(level + 1, N - 1)`, on an
incorrect one it leaves `correct` unchanged and demotes `level` to
`max(level - 1, 0)`; in both cases `next_review = now + interval_table[level']`
with `level'` the post-transition level. -/
theorem update_card_status_spec (card : Flashcard) (b : Bool) (now : Int)
    (h0 : 0 ≤ card.level) (h1 : card.level ≤ (INTERVALS.length : Int) - 1) :
    ∃ c', update_card_status card b now = some c' ∧
      c'.word = card.word ∧
      c'.translation = card.translation ∧
      c'.reviews = card.reviews + 1 ∧
      c'.correct = (if b then card.correct + 1 else card.correct) ∧
      c'.level = (if b then min (card.level + 1) ((INTERVALS.length : Int) - 1)
                  else max (card.level - 1) 0) ∧
      ∃ d, pyGet INTERVALS c'.level = some d ∧
        c'.next_review = now + timedeltaDays d := by
  have h5 : card.level ≤ 5 := by simpa [INTERVALS] using h1
  obtain ⟨d, hd, heq⟩ := update_card_status_eq card b now h0 h5
  refine ⟨_, heq, rfl, rfl, rfl, rfl, ?_, d, ?_, rfl⟩
  · simp [INTERVALS]
  · simpa using hd

/-- Witness for C1: a fresh level-0 card reviewed correctly at time 0 moves
to level 1 with `next_review = 3` days out. -/
theorem update_card_status_spec_witness :
    ∃ c', update_card_status (newCard "casa" "house" 0) true 0 = some c' ∧
      c'.word = (newCard "casa" "house" 0).word ∧
      c'.translation = (newCard "casa" "house" 0).translation ∧
      c'.reviews = (newCard "casa" "house" 0).reviews + 1 ∧
      c'.correct = (if true then (newCard "casa" "house" 0).correct + 1
                    else (newCard "casa" "house" 0).correct) ∧
      c'.level = (if true then
                    min ((newCard "casa" "house" 0).level + 1) ((INTERVALS.length : Int) - 1)
                  else max ((newCard "casa" "house" 0).level - 1) 0) ∧
      ∃ d, pyGet INTERVALS c'.level = some d ∧
        c'.next_review = 0 + timedeltaDays d :=
  update_card_status_spec (newCard "casa" "house" 0) true 0 (by decide) (by decide)

/-- C2: starting from the §3 defaults (`level=0`, `reviews=0`, `correct=0`),
any finite sequence of outcomes keeps `0 ≤ level ≤ N-1` and
`correct ≤ reviews` (and every such sequence succeeds). -/
theorem card_invariant (w t : String) (now0 : Int) (outs : List (Bool × Int)) :
    ∃ c', applySeq (newCard w t now0) outs = some c' ∧
      0 ≤ c'.level ∧ c'.level ≤ (INTERVALS.length : Int) - 1 ∧
      c'.correct ≤ c'.reviews := by
  obtain ⟨c', hc', hinv⟩ := applySeq_inv outs (newCard w t now0)
    ⟨le_refl 0, by simp [newCard], le_refl 0, le_refl 0⟩
  exact ⟨c', hc', hinv.1, by simpa [INTERVALS] using hinv.2.1, hinv.2.2.2⟩

/-- C3: due-card selection at time `t` returns exactly the cards with
`next_review ≤ t`. -/
theorem get_due_cards_spec (cards : List Flashcard) (now : Int) (c : Flashcard) :
    c ∈ get_due_cards cards now ↔ c ∈ cards ∧ c.next_review ≤ now := by
  simp [get_due_cards, List.mem_filter]

/-- Deserializing a serialized card recovers it exactly, every field
included. -/
lemma from_dict_to_dict (c : Flashcard) : from_dict (to_dict c) = .ok c := rfl

/-- C4: loading after saving yields an equal list — every field and the
order preserved. -/
theorem save_load_round_trip (cards : List Flashcard) :
    load_cards (FileState.json (save_cards cards)) = .ok cards := by
  simp only [load_cards, save_cards]
  induction cards with
  | nil => rfl
  | cons c cs ih =>
    simp only [List.map_cons] at ih ⊢
    rw [load_records, from_dict_to_dict, ih]

/-- C9: the statistics block's average accuracy on the spec's concrete
scenario — one card with 4 reviews 2 correct, one never reviewed — is
`((2/4) + 0) / 2 * 100 = 25`, the zero-review card's accuracy counting
as `0`. -/
theorem compute_stats_scenario :
    per_card_accuracy statsCardA = 1 / 2 ∧
    per_card_accuracy statsCardB = 0 ∧
    avg_accuracy [statsCardA, statsCardB] = 25 := by
  refine ⟨?_, ?_, ?_⟩ <;>
    norm_num [avg_accuracy, per_card_accuracy, statsCardA, statsCardB]

/-- C10: a snapshot record whose `reviews` or `correct` key is missing
still deserializes; the missing counter defaults to `0` while every other
field is taken from the record as-is. -/
theorem from_dict_missing_counters (w t : String) (l nr : Int)
    (rv cr : Option Int) (_hmiss : rv = none ∨ cr = none) :
    ∃ c, from_dict ⟨some w, some t, some l, some nr, rv, cr⟩ = Except.ok c ∧
      c.word = w ∧ c.translation = t ∧ c.level = l ∧ c.next_review = nr ∧
      (rv = none → c.reviews = 0) ∧ (cr = none → c.correct = 0) ∧
      (∀ n, rv = some n → c.reviews = n) ∧ (∀ n, cr = some n → c.correct = n) := by
  clear _hmiss
  refine ⟨_, rfl, rfl, rfl, rfl, rfl, ?_, ?_, ?_, ?_⟩
  · rintro rfl; rfl
  · rintro rfl; rfl
  · rintro n rfl; rfl
  · rintro n rfl; rfl

/-- Witness for C10: a record carrying `correct = 7` but no `reviews` key
loads with `reviews = 0` and `correct = 7`. -/
theorem from_dict_missing_counters_witness :
    ∃ c, from_dict ⟨some "w", some "t", some 2, some 5, none, some 7⟩ = Except.ok c ∧
      c.word = "w" ∧ c.translation = "t" ∧ c.level = 2 ∧ c.next_review = 5 ∧
      (none = (none : Option Int) → c.reviews = 0) ∧
      ((some 7 : Option Int) = none → c.correct = 0) ∧
      (∀ n, (none : Option Int) = some n → c.reviews = n) ∧
      (∀ n, (some 7 : Option Int) = some n → c.correct = n) :=
  from_dict_missing_counters "w" "t" 2 5 none (some 7) (Or.inl rfl)

/-- A record missing a required key makes `from_dict` raise. -/
lemma from_dict_error {r : CardRecord} (h : wellFormed r = false) :
    from_dict r = .error .badRecord := by
  obtain ⟨w, t, l, nr, rv, cr⟩ := r
  cases w <;> cases t <;> cases l <;> cases nr <;>
    first
      | rfl
      | simp [wellFormed] at h

/-- A snapshot containing a record missing a required key fails to load. -/
lemma load_records_error {rs : List CardRecord} {r : CardRecord}
    (hr : r ∈ rs) (hbad : wellFormed r = false) :
    ∃ e, load_records rs = Except.error e := by
  induction rs with
  | nil => cases hr
  | cons a l ih =>
    rw [load_records]
    rcases List.mem_cons.mp hr with rfl | hmem
    · rw [from_dict_error hbad]
      exact ⟨.badRecord, rfl⟩
    · cases hfa : from_dict a with
      | error e => exact ⟨e, rfl⟩
      | ok c =>
        obtain ⟨e, he⟩ := ih hmem
        rw [he]
        exact ⟨e, rfl⟩

/-- C8: loading with no snapshot present yields the empty collection (first
run is not an error), while every other failure — unreadable file, invalid
JSON, a record missing a required key — raises. -/
theorem load_cards_spec :
    load_cards FileState.absent = Except.ok [] ∧
    ∀ fs, corruptFile fs → ∃ e, load_cards fs = Except.error e := by
  refine ⟨rfl, ?_⟩
  intro fs hfs
  cases fs with
  | absent => cases hfs
  | unreadable => exact ⟨.ioError, rfl⟩
  | invalidJson => exact ⟨.malformedJson, rfl⟩
  | json rs =>
    obtain ⟨r, hr, hbad⟩ := hfs
    exact load_records_error hr hbad

/-- Witness for C8: a one-record snapshot whose record lacks the `word` key
fails to load. -/
theorem load_cards_spec_witness :
    ∃ e, load_cards (FileState.json [⟨none, some "t", some 0, some 0, none, none⟩])
      = Except.error e :=
  load_cards_spec.2 _ ⟨⟨none, some "t", some 0, some 0, none, none⟩,
    List.mem_singleton.mpr rfl, rfl⟩

/-- C7 counterexample: pressing "Add Card" with an empty word leaves the
collection and snapshot untouched but reports nothing at all — no
ValidationError (nor any message) reaches the caller. -/
theorem add_card_empty_silent :
    (add_card [] "" "hola" 0).message = none ∧
    (add_card [] "" "hola" 0).cards = [] ∧
    (add_card [] "" "hola" 0).saved = false := by
  refine ⟨?_, ?_, ?_⟩ <;> simp [add_card]

/-- C7 amended: adding with an empty word or empty translation performs no
mutation — the collection is unchanged and nothing is persisted — but the
failure is silent: no message of any kind is emitted. -/
theorem add_card_empty_no_mutation (cards : List Flashcard)
    (word translation : String) (now : Int)
    (h : word = "" ∨ translation = "") :
    add_card cards word translation now =
      { cards := cards, saved := false, message := none } := by
  rcases h with rfl | rfl <;> simp [add_card]

/-- Witness for the amended C7: an empty translation leaves an empty store
empty, unsaved and message-free. -/
theorem add_card_empty_no_mutation_witness :
    add_card [] "abc" "" 3 = { cards := [], saved := false, message := none } :=
  add_card_empty_no_mutation [] "abc" "" 3 (Or.inr rfl)

/-- Unfolding `create_quiz` on a successful target lookup. -/
lemma create_quiz_eq_of_find {sample : List String → Nat → List String}
    {shuffle : List String → List String} {cards : List Flashcard}
    {w : String} {c : Flashcard}
    (hfc : cards.find? (fun c => c.word == w) = some c) :
    create_quiz sample shuffle cards w =
      some (shuffle (c.translation ::
        sample ((cards.filter (fun c => c.word != w)).map (fun c => c.translation))
          (min 3 (cards.filter (fun c => c.word != w)).length)),
        c.translation) := by
  simp only [create_quiz, hfc]

/-- C5: with a sample oracle honouring the `random.sample` contract and a
shuffle oracle that permutes, a collection holding exactly one card for the
target word yields a quiz of `1 + min 3 |other cards|` options containing
the true translation exactly once (translations being pairwise distinct);
with no other card at all the options are exactly the single correct
answer. -/
theorem create_quiz_spec (sample : List String → Nat → List String)
    (shuffle : List String → List String) (cards : List Flashcard) (w : String)
    (hsample : ∀ pool k, k ≤ pool.length →
      (sample pool k).length = k ∧ ∀ x ∈ sample pool k, x ∈ pool)
    (hshuffle : ∀ l, List.Perm (shuffle l) l)
    (hone : (cards.filter (fun c => c.word == w)).length = 1)
    (hdist : (cards.map (fun c => c.translation)).Nodup) :
    ∃ opts ans, create_quiz sample shuffle cards w = some (opts, ans) ∧
      opts.length = 1 + min 3 (cards.filter (fun c => c.word != w)).length ∧
      opts.count ans = 1 ∧
      ((cards.filter (fun c => c.word != w)) = [] → opts = [ans]) := by
  have hex : ∃ x, x ∈ cards ∧ (fun c : Flashcard => c.word == w) x = true := by
    rcases hfilter : cards.filter (fun c => c.word == w) with _ | ⟨c0, rest⟩
    · rw [hfilter] at hone
      cases hone
    · have hmem : c0 ∈ cards.filter (fun c => c.word == w) := by
        rw [hfilter]
        exact List.mem_cons_self _ _
      have hmf := List.mem_filter.mp hmem
      exact ⟨c0, hmf.1, hmf.2⟩
  obtain ⟨c, hfc⟩ := Option.isSome_iff_exists.mp (List.find?_isSome.mpr hex)
  have hcmem : c ∈ cards := List.mem_of_find?_eq_some hfc
  have hcw : c.word = w := by simpa using List.find?_some hfc
  have hplen : ((cards.filter (fun c => c.word != w)).map
      (fun c => c.translation)).length
      = (cards.filter (fun c => c.word != w)).length := List.length_map _ _
  have hk : min 3 (cards.filter (fun c => c.word != w)).length
      ≤ ((cards.filter (fun c => c.word != w)).map (fun c => c.translation)).length := by
    rw [hplen]
    exact min_le_right _ _
  obtain ⟨hslen, hsmem⟩ := hsample _ _ hk
  refine ⟨_, _, create_quiz_eq_of_find hfc, ?_, ?_, ?_⟩
  · rw [(hshuffle _).length_eq]
    simp [hslen, Nat.add_comm]
  · rw [(hshuffle _).count_eq, List.count_cons_self]
    have hnot : c.translation ∉ sample
        ((cards.filter (fun c => c.word != w)).map (fun c => c.translation))
        (min 3 (cards.filter (fun c => c.word != w)).length) := by
      intro hmem
      obtain ⟨c', hc', ht⟩ := List.mem_map.mp (hsmem _ hmem)
      have hmf := List.mem_filter.mp hc'
      have hcc : c' = c := List.inj_on_of_nodup_map hdist hmf.1 hcmem ht
      rw [hcc, hcw] at hmf
      simpa using hmf.2
    rw [List.count_eq_zero.mpr hnot]
  · intro hempty
    have hs0 : (sample ((cards.filter (fun c => c.word != w)).map
        (fun c => c.translation))
        (min 3 (cards.filter (fun c => c.word != w)).length)).length = 0 := by
      rw [hslen, hempty]
      rfl
    rw [List.length_eq_zero] at hs0
    rw [hs0]
    exact List.perm_singleton.mp (hshuffle _)

/-- Witness for C5: two cards, target `"casa"`, sampling by `take` and the
identity shuffle give the two-option quiz predicted by the theorem. -/
theorem create_quiz_spec_witness :
    ∃ opts ans, create_quiz (fun pool k => pool.take k) (fun l => l)
        [quizCardA, quizCardB] "casa" = some (opts, ans) ∧
      opts.length = 1 +
        min 3 (([quizCardA, quizCardB].filter (fun c => c.word != "casa")).length) ∧
      opts.count ans = 1 ∧
      (([quizCardA, quizCardB].filter (fun c => c.word != "casa")) = [] →
        opts = [ans]) :=
  create_quiz_spec (fun pool k => pool.take k) (fun l => l)
    [quizCardA, quizCardB] "casa"
    (fun pool k hk =>
      ⟨by simpa [List.length_take] using Nat.min_eq_left hk,
       fun x hx => List.mem_of_mem_take hx⟩)
    (fun l => List.Perm.refl l)
    (by decide)
    (by decide)

/-- C6: the quiz generator fails (the `next(...)` lookup raises) exactly
when no card in the collection carries the target word; with a match
present it returns normally. -/
theorem create_quiz_none_iff (sample : List String → Nat → List String)
    (shuffle : List String → List String) (cards : List Flashcard)
    (w : String) :
    create_quiz sample shuffle cards w = none ↔ ∀ c ∈ cards, c.word ≠ w := by
  cases hf : cards.find? (fun c => c.word == w) with
  | none =>
    simp only [List.find?_eq_none] at hf
    constructor
    · intro _ c hc
      simpa using hf c hc
    · intro _
      simp only [create_quiz]
      rw [List.find?_eq_none.mpr (by simpa using hf)]
  | some c =>
    have hc : c ∈ cards := List.mem_of_find?_eq_some hf
    have hw : c.word = w := by simpa using List.find?_some hf
    rw [create_quiz_eq_of_find hf]
    constructor
    · intro h
      cases h
    · intro h
      exact absurd hw (h c hc)

end Flashcards
